import Mathlib

/-
  Shallow embedding of the MedCLIP-1 repository's zero-shot classification
  pipeline (src/baselines/convirt/eval_convirt.py and
  src/course_project_codes/vision_text_pretrain/medclip/prompts.py).

  Conventions:
  - Tensors are rational matrices `List (List ℚ)` in row-major form.  The
    neural backbones (ResNet-50, Bio_ClinicalBERT and its projection head)
    are external pretrained collaborators, so the embedded forward pass takes
    their raw per-row feature outputs as inputs and performs exactly the
    arithmetic the script performs on them (L2-normalisation, matmul,
    temperature scaling, reductions, loss).
  - The square-root used by `tensor.norm` and the log-sum-exp inside
    `nn.CrossEntropyLoss` are transcendental library kernels; they enter as
    explicit function parameters (`sqrtFn`, `lse`), with their defining
    properties assumed only on the concrete values a theorem touches.
  - A raised Python exception is `Except.error`; the float NaN produced by
    `torch.mean` over an empty reduction dimension is `TScalar.nan`.
  - `random.sample(pop, k)` / `DataFrame.sample(n)` draw k distinct
    positions; the drawn positions are an explicit input (`draw`), and
    theorems hypothesise exactly what the library guarantees about them
    (distinct, in range, of the requested length).
-/

namespace MedCLIP

abbrev Mat : Type := List (List ℚ)

/-- Dot product of two rows (`torch.matmul` inner kernel). -/
def dot (u v : List ℚ) : ℚ := (List.zipWith (· * ·) u v).sum

/-- `torch.matmul(A, B.t())`: entry (i,j) is `dot (A i) (B j)`. -/
def matmulT (A B : Mat) : Mat := A.map fun a => B.map fun b => dot a b

/-- Transpose of a rectangular matrix whose rows have length `m`
(`tensor.T`; the column count is carried explicitly because an empty list
of rows loses it). -/
def transposeWith (m : ℕ) (X : Mat) : Mat :=
  (List.range m).map fun j => X.map fun r => r.getD j 0

/-- Squared L2 norm of a row: the quantity under the square root in
`tensor.norm(dim=-1)`. -/
def l2normSq (v : List ℚ) : ℚ := (v.map fun x => x * x).sum

/-- `x / x.norm(dim=-1, keepdim=True)` applied to one row, with the
library's square-root kernel passed in as `sqrtFn`. -/
def normalizeRow (sqrtFn : ℚ → ℚ) (v : List ℚ) : List ℚ :=
  v.map fun x => x / sqrtFn (l2normSq v)

/-- A torch scalar: either a number or the float NaN that `torch.mean`
produces when reducing over zero elements. -/
inductive TScalar where
  | nan : TScalar
  | val : ℚ → TScalar
deriving DecidableEq, Repr

/-- `torch.mean(X, 1)`: per-row arithmetic mean; a zero-width row gives NaN
(0/0 in IEEE arithmetic), it does not raise. -/
def torchMeanDim1 (X : Mat) : List TScalar :=
  X.map fun r => if r.length = 0 then TScalar.nan else TScalar.val (r.sum / r.length)

/-- Maximum of a row via left fold, `none` on an empty row. -/
def rowMax : List ℚ → Option ℚ
  | [] => none
  | x :: xs => some (xs.foldl max x)

/-- `torch.max(X, 1)[0]`: per-row maximum; raises when the reduction
dimension has zero size. -/
def torchMaxDim1 (X : Mat) : Except String (List ℚ) :=
  X.mapM fun r =>
    match rowMax r with
    | some m => Except.ok m
    | none => Except.error "max(): Expected reduction dim 1 to have non-zero size"

/-! ### ConVIRT dual encoder (eval_convirt.py lines 29-83) -/

/-- `self.temperature = 0.1` (eval_convirt.py line 45). -/
def temperature : ℚ := 1 / 10

/-- `self.lamb = 0.75` (eval_convirt.py line 44). -/
def lamb : ℚ := 3 / 4

/-- The value `nn.CrossEntropyLoss()(X, targets)` computes when every target
index is in range: mean over rows of `logsumexp(row) - row[target]`. -/
def ceVal (lse : List ℚ → ℚ) (X : Mat) (targets : List ℕ) : ℚ :=
  (((X.zip targets).map fun p => lse p.1 - p.1.getD p.2 0).sum) / X.length

/-- `nn.CrossEntropyLoss()(X, targets)` where `X` has `nclasses` columns:
raises (returns `none`) when some target index is out of class range. -/
def ceLoss (lse : List ℚ → ℚ) (X : Mat) (nclasses : ℕ) (targets : List ℕ) : Option ℚ :=
  if targets.all (· < nclasses) then some (ceVal lse X targets) else none

/-- `ConVIRT.compute_loss` (eval_convirt.py lines 78-83): the matrix's
column count `ncols` is carried explicitly (a tensor knows its shape).
`image_loss = CE(logits, arange(len(logits)))`,
`caption_loss = CE(logits.T, arange(len(logits.T)))`,
`loss = lamb * image_loss + (1 - lamb) * caption_loss`. -/
def ConVIRT.compute_loss (lse : List ℚ → ℚ) (X : Mat) (ncols : ℕ) : Option ℚ :=
  (ceLoss lse X ncols (List.range X.length)).bind fun imageLoss =>
  (ceLoss lse (transposeWith ncols X) X.length (List.range ncols)).map fun captionLoss =>
  lamb * imageLoss + (1 - lamb) * captionLoss

/-- Output dictionary of `ConVIRT.forward` (eval_convirt.py lines 69-72). -/
structure ConVIRTOut where
  img_embeds : Mat
  text_embeds : Mat
  logits : Mat
  logits_per_text : Mat
  loss_value : Option ℚ
deriving DecidableEq, Repr

/-- The output dictionary built at eval_convirt.py lines 57-72 before the
`return_loss` branch: normalised embeddings, temperature-scaled logits and
their transpose, `loss_value` still `None`. -/
def encOut (sqrtFn : ℚ → ℚ) (imgFeat textFeat : Mat) : ConVIRTOut :=
  let img_embed := imgFeat.map (normalizeRow sqrtFn)
  let text_embed := textFeat.map (normalizeRow sqrtFn)
  let logits := (matmulT img_embed text_embed).map (List.map fun x => x / temperature)
  { img_embeds := img_embed, text_embeds := text_embed, logits := logits,
    logits_per_text := transposeWith textFeat.length logits, loss_value := none }

/-- `ConVIRT.forward` (eval_convirt.py lines 47-76).  `imgFeat` is the raw
output of the ResNet projection head (one row per image), `textFeat` the raw
output of the BERT pooler + text projection head (one row per text); the
script L2-normalises both, forms `logits = img @ text.T / temperature`,
`logits_per_text = logits.T`, and when `return_loss` is set computes the
InfoNCE loss, which can raise on a target index out of range. -/
def ConVIRT.forward (sqrtFn : ℚ → ℚ) (lse : List ℚ → ℚ) (imgFeat textFeat : Mat)
    (return_loss : Bool) : Except String ConVIRTOut :=
  let out := encOut sqrtFn imgFeat textFeat
  if return_loss then
    match ConVIRT.compute_loss lse out.logits textFeat.length with
    | some l => Except.ok { out with loss_value := some l }
    | none => Except.error "CrossEntropyLoss: target index out of range"
  else
    Except.ok out

/-! ### ConVIRTClassifier (eval_convirt.py lines 85-115) -/

/-- `ConVIRTClassifier.forward` (eval_convirt.py lines 91-115).  For each
class in iteration order it runs the dual encoder with `return_loss=False`
against that class's prompt features, reduces the logits along the prompt
dimension (`torch.mean(logits, 1)` when `ensemble`, else
`torch.max(logits, 1)[0]`), then `torch.stack(class_similarities, 1)` —
which raises on an empty list — and returns the stacked similarities with
the parallel class-name list. -/
def ConVIRTClassifier.forward (sqrtFn : ℚ → ℚ) (lse : List ℚ → ℚ) (ensemble : Bool)
    (imgFeat : Mat) (prompt_inputs : List (String × Mat)) :
    Except String (List (List TScalar) × List String) := do
  let sims ← prompt_inputs.mapM fun ct => do
    let o ← ConVIRT.forward sqrtFn lse imgFeat ct.2 false
    if ensemble then
      pure (torchMeanDim1 o.logits)
    else
      (torchMaxDim1 o.logits).map (List.map TScalar.val)
  if sims.length = 0 then
    Except.error "stack expects a non-empty TensorList"
  else
    Except.ok
      ((List.range imgFeat.length).map fun i => sims.map fun c => c.getD i TScalar.nan,
       prompt_inputs.map Prod.fst)

/-! ### Prompt generation (medclip/prompts.py) -/

/-- `random.sample(l, k)` / `DataFrame.sample(n)` as position selection: the
library draws a list of distinct in-range positions `idxs` and returns the
elements at those positions. -/
def sampleByIdx {α : Type} (idxs : List ℕ) (l : List α) : List α :=
  idxs.filterMap fun i => l.get? i

/-- The sampling step shared by both template generators
(prompts.py lines 62-65 and 82-85): sample only when `n` is given and
`n < len(cls_prompts)`, otherwise keep all candidates. -/
def samplePrompts (idxs : List ℕ) (n : Option ℕ) (cands : List String) : List String :=
  match n with
  | some nv => if nv < cands.length then sampleByIdx idxs cands else cands
  | none => cands

/-- One CheXpert class template: the three phrase lists stored under the
template's first three keys (severity, subtype, location). -/
structure CXTemplate where
  severity : List String
  subtype : List String
  location : List String
deriving DecidableEq, Repr

/-- The nested three-level loop of prompts.py lines 53-58: every
severity-subtype-location combination space-joined, innermost list fastest. -/
def crossJoin3 (l0 l1 l2 : List String) : List String :=
  l0.flatMap fun k0 => l1.flatMap fun k1 => l2.map fun k2 =>
    k0 ++ " " ++ k1 ++ " " ++ k2

/-- The candidate prompt list built for one CheXpert class. -/
def cxCandidates (t : CXTemplate) : List String :=
  crossJoin3 t.severity t.subtype t.location

/-- One COVID class template: the four phrase lists stored under the
template's first four keys. -/
structure CovidTemplate where
  p0 : List String
  p1 : List String
  p2 : List String
  p3 : List String
deriving DecidableEq, Repr

/-- The nested four-level loop of prompts.py lines 75-79. -/
def crossJoin4 (l0 l1 l2 l3 : List String) : List String :=
  l0.flatMap fun k0 => l1.flatMap fun k1 => l2.flatMap fun k2 => l3.map fun k3 =>
    k0 ++ " " ++ k1 ++ " " ++ k2 ++ " " ++ k3

/-- The candidate prompt list built for one COVID class. -/
def covidCandidates (t : CovidTemplate) : List String :=
  crossJoin4 t.p0 t.p1 t.p2 t.p3

/-- `generate_chexpert_class_prompts` (prompts.py lines 35-67), with the
template mapping `CHEXPERT_CLASS_PROMPTS` (defined in medclip/constants.py,
outside src/) as an explicit input and the random draw for the class named
`k` given by `draw k` (dictionary keys are unique, so naming the draw by
class is faithful). -/
def generate_chexpert_class_prompts (draw : String → List ℕ)
    (templates : List (String × CXTemplate)) (n : Option ℕ) :
    List (String × List String) :=
  templates.map fun p =>
    (p.1, samplePrompts (draw p.1) n (cxCandidates p.2))

/-- `generate_covid_class_prompts` (prompts.py lines 69-87), with the
template mapping `COVID_CLASS_PROMPTS` as an explicit input. -/
def generate_covid_class_prompts (draw : String → List ℕ)
    (templates : List (String × CovidTemplate)) (n : Option ℕ) :
    List (String × List String) :=
  templates.map fun p =>
    (p.1, samplePrompts (draw p.1) n (covidCandidates p.2))

/-! ### Sentence-sampling prompt generation (prompts.py lines 9-33) -/

/-- The sentence-label table: `pd.read_csv('sentence-label.csv', index_col=0)`.
Column 0 of the frame is `Reports` (free text); the remaining columns
`taskCols` hold numeric one-hot labels, possibly missing (`none` = NaN,
turned into 0 by `fillna(0)`).  Each row pairs its text with its label
cells, parallel to `taskCols`. -/
structure SentTable where
  taskCols : List String
  rows : List (String × List (Option ℚ))
deriving Repr

/-- `df_sent[task] == 1` for one (filled) row: when `task` is the text
column `Reports`, pandas compares strings against the number 1 and gets
`False` everywhere; when `task` is a label column, it looks up that
column's cell. -/
def targetIsOne (taskCols : List String) (task : String) (cells : List ℚ) : Bool :=
  if task == "Reports" then false
  else cells.getD (taskCols.findIdx (· == task)) 0 == 1

/-- The row filter of prompts.py line 29:
`(df_sent[task] == 1) & (df_sent[other_tasks] == 0).all(1)` where
`other_tasks = [t for t in all_tasks if t != task]`. -/
def qualifiesRow (taskCols : List String) (task : String) (r : String × List ℚ) : Bool :=
  targetIsOne taskCols task r.2 &&
    (taskCols.zip r.2).all fun p => p.1 == task || p.2 == 0

/-- The qualifying rows for one task: `fillna(0)`, drop rows whose text has
length ≤ 4 (line 16), then the boolean-mask filter of line 29. -/
def qualRows (tbl : SentTable) (task : String) : List (String × List ℚ) :=
  ((tbl.rows.map fun r => (r.1, r.2.map fun c => c.getD 0)).filter
    fun r => 4 < r.1.length).filter (qualifiesRow tbl.taskCols task)

/-- The body of the `for task in target_tasks` loop (prompts.py lines
27-32) for a single task: `df_sent[task]` raises a `KeyError` unless `task`
is one of the frame's columns (`Reports` or a label column); otherwise the
qualifying rows are filtered and, when `n` is given and exceeded, sampled
(`df.sample(n)`, modelled by the drawn row positions `draw t`). -/
def genTaskPrompts (draw : String → List ℕ) (tbl : SentTable) (n : Option ℕ)
    (t : String) : Except String (String × List String) :=
  if t ∈ ("Reports" :: tbl.taskCols) then
    let qual := qualRows tbl t
    let sub :=
      match n with
      | some nv => if nv < qual.length then sampleByIdx (draw t) qual else qual
      | none => qual
    Except.ok (t, sub.map Prod.fst)
  else
    Except.error ("KeyError: " ++ t)

/-- `generate_class_prompts` (prompts.py lines 9-33) called with a list of
tasks (the `isinstance(task, list)` branch), iterating `genTaskPrompts`
over the requested tasks; the first `KeyError` aborts the loop.  The
sampling draw for the task named `t` is `draw t`. -/
def generate_class_prompts (draw : String → List ℕ) (tbl : SentTable)
    (tasks : List String) (n : Option ℕ) :
    Except String (List (String × List String)) :=
  tasks.mapM (genTaskPrompts draw tbl n)

/-! ### Prompt tokenisation (prompts.py lines 89-96) -/

/-- Modelled from the spec: the HuggingFace tokenizer used by
`process_class_prompts` lives outside src/ (it is
`AutoTokenizer.from_pretrained(constants.BERT_TYPE)`).  Per the spec it
encodes each text to token ids (`encode`), truncates at `maxLen` tokens
when truncation is on, right-pads every sequence with the pad marker
`padId` to the batch's maximum length when padding is on, and returns the
matching attention masks (1 over real tokens, 0 over padding). -/
def hfTokenize (encode : String → List ℕ) (padId : ℕ) (maxLen : ℕ)
    (truncation padding : Bool) (texts : List String) :
    List (List ℕ) × List (List ℕ) :=
  let toks := texts.map fun t => if truncation then (encode t).take maxLen else encode t
  let batchLen := if padding then (toks.map List.length).foldl max 0 else 0
  (toks.map fun t => t ++ List.replicate (batchLen - t.length) padId,
   toks.map fun t => List.replicate t.length 1 ++ List.replicate (batchLen - t.length) 0)

/-- `process_class_prompts` (prompts.py lines 89-96): sets
`tokenizer.model_max_length = 77` and tokenizes each class's prompt list
with `truncation=True, padding=True`, keyed by the same class names. -/
def process_class_prompts (encode : String → List ℕ) (padId : ℕ)
    (cls_prompts : List (String × List String)) :
    List (String × (List (List ℕ) × List (List ℕ))) :=
  cls_prompts.map fun kv => (kv.1, hfTokenize encode padId 77 true true kv.2)

/-! ### General helper lemmas -/

lemma mapM_ok {α β : Type} (f : α → Except String β) (g : α → β) :
    ∀ l : List α, (∀ x ∈ l, f x = Except.ok (g x)) → l.mapM f = Except.ok (l.map g)
  | [], _ => rfl
  | x :: t, h => by
    rw [List.mapM_cons, h x (List.mem_cons_self x t),
      mapM_ok f g t fun y hy => h y (List.mem_cons_of_mem x hy)]
    rfl

lemma mapM_error {α β : Type} (f : α → Except String β) :
    ∀ (l : List α) (x : α), x ∈ l → (∀ b, f x ≠ Except.ok b) →
      ∃ e, l.mapM f = Except.error e
  | y :: t, x, hmem, hx => by
    rcases hfy : f y with e | b
    · exact ⟨e, by rw [List.mapM_cons, hfy]; rfl⟩
    · rcases List.mem_cons.mp hmem with rfl | hxt
      · exact absurd hfy (hx b)
      · obtain ⟨e, he⟩ := mapM_error f t x hxt hx
        exact ⟨e, by rw [List.mapM_cons, hfy, he]; rfl⟩

lemma mapM_congrFn {α β : Type} (f g : α → Except String β) :
    ∀ l : List α, (∀ x ∈ l, f x = g x) → l.mapM f = l.mapM g
  | [], _ => rfl
  | x :: t, h => by
    rw [List.mapM_cons, List.mapM_cons, h x (List.mem_cons_self x t),
      mapM_congrFn f g t fun y hy => h y (List.mem_cons_of_mem x hy)]

lemma le_foldl_max {α : Type} [LinearOrder α] : ∀ (l : List α) (a : α), a ≤ l.foldl max a
  | [], a => le_refl a
  | b :: t, a => le_trans (le_max_left a b) (le_foldl_max t (max a b))

lemma mem_le_foldl_max {α : Type} [LinearOrder α] :
    ∀ (l : List α) (a x : α), x ∈ l → x ≤ l.foldl max a
  | b :: t, a, x, h => by
    rcases List.mem_cons.mp h with rfl | h2
    · exact le_trans (le_max_right a x) (le_foldl_max t (max a x))
    · exact mem_le_foldl_max t (max a b) x h2

lemma foldl_max_mem {α : Type} [LinearOrder α] :
    ∀ (l : List α) (a : α), l.foldl max a = a ∨ l.foldl max a ∈ l
  | [], _ => Or.inl rfl
  | b :: t, a => by
    show t.foldl max (max a b) = a ∨ t.foldl max (max a b) ∈ b :: t
    rcases foldl_max_mem t (max a b) with h | h
    · rcases max_choice a b with hab | hab
      · exact Or.inl (by rw [h, hab])
      · exact Or.inr (by rw [h, hab]; exact List.mem_cons_self b t)
    · exact Or.inr (List.mem_cons_of_mem b h)

lemma get?_some_of_lt {α : Type} (l : List α) (i : ℕ) (h : i < l.length) :
    ∃ x, l.get? i = some x ∧ x ∈ l :=
  ⟨l.get ⟨i, h⟩, List.get?_eq_get h, List.get_mem l i h⟩

/-! ### Helper lemmas about the embedded operations -/

lemma rowMax_spec (r : List ℚ) (h : r ≠ []) :
    ∃ m, rowMax r = some m ∧ m ∈ r ∧ ∀ y ∈ r, y ≤ m := by
  match r, h with
  | x :: xs, _ =>
    refine ⟨xs.foldl max x, rfl, ?_, ?_⟩
    · rcases foldl_max_mem xs x with h1 | h1
      · rw [h1]; exact List.mem_cons_self x xs
      · exact List.mem_cons_of_mem x h1
    · intro y hy
      rcases List.mem_cons.mp hy with rfl | h1
      · exact le_foldl_max xs y
      · exact mem_le_foldl_max xs x y h1

lemma torchMaxDim1_ok (M : Mat) (h : ∀ r ∈ M, r ≠ []) :
    torchMaxDim1 M = Except.ok (M.map fun r => (rowMax r).getD 0) := by
  unfold torchMaxDim1
  apply mapM_ok
  intro r hr
  obtain ⟨m, hm, -, -⟩ := rowMax_spec r (h r hr)
  rw [hm]
  rfl

lemma encOut_logits_length (sqrtFn : ℚ → ℚ) (imgFeat textFeat : Mat) :
    (encOut sqrtFn imgFeat textFeat).logits.length = imgFeat.length := by
  simp [encOut, matmulT]

lemma encOut_logits_row_length (sqrtFn : ℚ → ℚ) (imgFeat textFeat : Mat) :
    ∀ r ∈ (encOut sqrtFn imgFeat textFeat).logits, r.length = textFeat.length := by
  intro r hr
  simp only [encOut, matmulT, List.map_map] at hr
  obtain ⟨a, -, rfl⟩ := List.mem_map.mp hr
  simp

lemma forward_false (sqrtFn : ℚ → ℚ) (lse : List ℚ → ℚ) (imgFeat textFeat : Mat) :
    ConVIRT.forward sqrtFn lse imgFeat textFeat false =
      Except.ok (encOut sqrtFn imgFeat textFeat) := rfl

lemma ok_bind {α β : Type} (a : α) (k : α → Except String β) :
    (Except.ok a >>= k : Except String β) = k a := rfl

lemma error_bind {α β : Type} (e : String) (k : α → Except String β) :
    (Except.error e >>= k : Except String β) = Except.error e := rfl

lemma get?_map_lt {α β : Type} (l : List α) (f : α → β) (k : ℕ) (hk : k < l.length) :
    (l.map f).get? k = some (f (l.get ⟨k, hk⟩)) := by
  rw [List.get?_map, List.get?_eq_get hk]; rfl

lemma getD_map_lt {α β : Type} (l : List α) (f : α → β) (i : ℕ) (hi : i < l.length) (d : β) :
    (l.map f).getD i d = f (l.get ⟨i, hi⟩) := by
  show ((l.map f).get? i).getD d = _
  rw [get?_map_lt l f i hi]
  rfl

/-- Evaluation of `ConVIRTClassifier.forward` when every per-class
reduction succeeds with value `g ct`. -/
lemma classifier_ok (sqrtFn : ℚ → ℚ) (lse : List ℚ → ℚ) (ensemble : Bool) (imgFeat : Mat)
    (pis : List (String × Mat)) (g : String × Mat → List TScalar)
    (hg : ∀ ct ∈ pis,
      (if ensemble then (pure (torchMeanDim1 (encOut sqrtFn imgFeat ct.2).logits) :
          Except String (List TScalar))
        else (torchMaxDim1 (encOut sqrtFn imgFeat ct.2).logits).map (List.map TScalar.val))
        = Except.ok (g ct))
    (hne : pis ≠ []) :
    ConVIRTClassifier.forward sqrtFn lse ensemble imgFeat pis =
      Except.ok ((List.range imgFeat.length).map
          fun i => (pis.map g).map fun c => c.getD i TScalar.nan,
        pis.map Prod.fst) := by
  unfold ConVIRTClassifier.forward
  rw [mapM_ok _ g pis (fun ct hct => by rw [forward_false, ok_bind]; exact hg ct hct), ok_bind]
  rw [if_neg (by simpa [List.length_eq_zero] using hne)]

/-- Mean-reduction (`ensemble=True`) never fails: the classifier returns the
stacked per-class `torch.mean` columns. -/
lemma classifier_mean_ok (sqrtFn : ℚ → ℚ) (lse : List ℚ → ℚ) (imgFeat : Mat)
    (pis : List (String × Mat)) (hne : pis ≠ []) :
    ConVIRTClassifier.forward sqrtFn lse true imgFeat pis =
      Except.ok ((List.range imgFeat.length).map
          fun i => (pis.map fun ct => torchMeanDim1 (encOut sqrtFn imgFeat ct.2).logits).map
            fun c => c.getD i TScalar.nan,
        pis.map Prod.fst) :=
  classifier_ok sqrtFn lse true imgFeat pis _ (fun _ _ => rfl) hne

/-- Max-reduction (`ensemble=False`) succeeds when every class has at least
one prompt. -/
lemma classifier_max_ok (sqrtFn : ℚ → ℚ) (lse : List ℚ → ℚ) (imgFeat : Mat)
    (pis : List (String × Mat)) (hne : pis ≠ []) (hcls : ∀ ct ∈ pis, ct.2 ≠ []) :
    ConVIRTClassifier.forward sqrtFn lse false imgFeat pis =
      Except.ok ((List.range imgFeat.length).map
          fun i => (pis.map fun ct =>
              (encOut sqrtFn imgFeat ct.2).logits.map fun r => TScalar.val ((rowMax r).getD 0)).map
            fun c => c.getD i TScalar.nan,
        pis.map Prod.fst) := by
  apply classifier_ok sqrtFn lse false imgFeat pis _ _ hne
  intro ct hct
  have hrows : ∀ r ∈ (encOut sqrtFn imgFeat ct.2).logits, r ≠ [] := by
    intro r hr hnil
    have hlen := encOut_logits_row_length sqrtFn imgFeat ct.2 r hr
    rw [hnil] at hlen
    exact hcls ct hct (List.length_eq_zero.mp hlen.symm)
  rw [if_neg (by simp), torchMaxDim1_ok _ hrows]
  simp [Except.map, List.map_map]

lemma stacked_get? (n : ℕ) (sims : List (List TScalar)) (i : ℕ) (hi : i < n) :
    ((List.range n).map fun j => sims.map fun c => c.getD j TScalar.nan).get? i =
      some (sims.map fun c => c.getD i TScalar.nan) := by
  rw [List.get?_map, List.get?_range hi]
  rfl

/-! ### Claim theorems -/

/-- C1: for every image batch and Tokenized Prompt Set (every class holding
at least one prompt, as the data-model invariant guarantees), the Classifier
Head returns, at image `i` and class column `k`, the arithmetic mean of row
`i` of that class's image-by-prompt logit matrix when `ensemble` is true and
the row-wise maximum when `ensemble` is false; columns follow the iteration
order of the prompt set and the returned class-name list is parallel to the
columns in that order. -/
theorem C1_classifier_head_reduction (sqrtFn : ℚ → ℚ) (lse : List ℚ → ℚ) (ensemble : Bool)
    (imgFeat : Mat) (pis : List (String × Mat)) (hne : pis ≠ [])
    (hcls : ∀ ct ∈ pis, ct.2 ≠ []) (k i : ℕ) (hk : k < pis.length)
    (hi : i < imgFeat.length) :
    ∃ S, ConVIRTClassifier.forward sqrtFn lse ensemble imgFeat pis =
        Except.ok (S, pis.map Prod.fst) ∧
      S.length = imgFeat.length ∧
      ∃ o srow,
        ConVIRT.forward sqrtFn lse imgFeat (pis.get ⟨k, hk⟩).2 false = Except.ok o ∧
        ∃ hrow : i < o.logits.length,
          (o.logits.get ⟨i, hrow⟩).length = (pis.get ⟨k, hk⟩).2.length ∧
          S.get? i = some srow ∧ srow.length = pis.length ∧
          srow.get? k = some (if ensemble
            then TScalar.val ((o.logits.get ⟨i, hrow⟩).sum / (o.logits.get ⟨i, hrow⟩).length)
            else TScalar.val ((rowMax (o.logits.get ⟨i, hrow⟩)).getD 0)) ∧
          (ensemble = false → ∃ m, rowMax (o.logits.get ⟨i, hrow⟩) = some m ∧
            m ∈ o.logits.get ⟨i, hrow⟩ ∧ ∀ y ∈ o.logits.get ⟨i, hrow⟩, y ≤ m) := by
  have hctmem : pis.get ⟨k, hk⟩ ∈ pis := pis.get_mem k hk
  have hMlen : (encOut sqrtFn imgFeat (pis.get ⟨k, hk⟩).2).logits.length = imgFeat.length :=
    encOut_logits_length sqrtFn imgFeat (pis.get ⟨k, hk⟩).2
  have hiM : i < (encOut sqrtFn imgFeat (pis.get ⟨k, hk⟩).2).logits.length := hMlen ▸ hi
  have hrowmem := (encOut sqrtFn imgFeat (pis.get ⟨k, hk⟩).2).logits.get_mem i hiM
  have hrowlen := encOut_logits_row_length sqrtFn imgFeat (pis.get ⟨k, hk⟩).2 _ hrowmem
  have hrowne : (encOut sqrtFn imgFeat (pis.get ⟨k, hk⟩).2).logits.get ⟨i, hiM⟩ ≠ [] := by
    intro hnil
    rw [hnil] at hrowlen
    exact hcls _ hctmem (List.length_eq_zero.mp hrowlen.symm)
  cases ensemble with
  | true =>
    refine ⟨_, classifier_mean_ok sqrtFn lse imgFeat pis hne, by simp, ?_⟩
    refine ⟨encOut sqrtFn imgFeat (pis.get ⟨k, hk⟩).2,
      (pis.map fun ct => torchMeanDim1 (encOut sqrtFn imgFeat ct.2).logits).map
        fun c => c.getD i TScalar.nan,
      forward_false sqrtFn lse imgFeat (pis.get ⟨k, hk⟩).2, hiM, hrowlen,
      stacked_get? imgFeat.length _ i hi, by simp, ?_, fun h => nomatch h⟩
    rw [List.get?_map, get?_map_lt pis _ k hk]
    show some ((torchMeanDim1 (encOut sqrtFn imgFeat (pis.get ⟨k, hk⟩).2).logits).getD i
      TScalar.nan) = _
    unfold torchMeanDim1
    rw [getD_map_lt _ _ i hiM]
    rw [if_neg fun h0 => hrowne (List.length_eq_zero.mp h0)]
    rfl
  | false =>
    refine ⟨_, classifier_max_ok sqrtFn lse imgFeat pis hne hcls, by simp, ?_⟩
    obtain ⟨m, hm, hmmem, hub⟩ := rowMax_spec _ hrowne
    refine ⟨encOut sqrtFn imgFeat (pis.get ⟨k, hk⟩).2,
      (pis.map fun ct => (encOut sqrtFn imgFeat ct.2).logits.map
        fun r => TScalar.val ((rowMax r).getD 0)).map fun c => c.getD i TScalar.nan,
      forward_false sqrtFn lse imgFeat (pis.get ⟨k, hk⟩).2, hiM, hrowlen,
      stacked_get? imgFeat.length _ i hi, by simp, ?_, fun _ => ⟨m, hm, hmmem, hub⟩⟩
    rw [List.get?_map, get?_map_lt pis _ k hk]
    show some (((encOut sqrtFn imgFeat (pis.get ⟨k, hk⟩).2).logits.map
        fun r => TScalar.val ((rowMax r).getD 0)).getD i TScalar.nan) = _
    rw [getD_map_lt _ _ i hiM]
    rfl

/-- C1 witness: a concrete one-image, one-class instance of the reduction
theorem. -/
theorem C1_witness :
    (([("A", [[2]])] : List (String × Mat)) ≠ [] ∧
      (∀ ct ∈ ([("A", [[2]])] : List (String × Mat)), ct.2 ≠ []) ∧
      (0 : ℕ) < 1 ∧ (0 : ℕ) < List.length [[(1 : ℚ)]]) ∧
    ∃ S, ConVIRTClassifier.forward (fun _ => 1) (fun _ => 0) true [[(1 : ℚ)]]
        [("A", [[2]])] = Except.ok (S, ["A"]) :=
  ⟨⟨by decide, by decide, by decide, by decide⟩, by
    obtain ⟨S, hS, -⟩ := C1_classifier_head_reduction (fun _ => 1) (fun _ => 0) true
      [[(1 : ℚ)]] [("A", [[2]])] (by decide) (by decide) 0 0 (by decide) (by decide)
    exact ⟨S, hS⟩⟩

/-- C5 counterexample: the claim says a class with zero prompts makes the
Classifier Head raise under both reduction policies, but under the mean
policy (`ensemble=True`) `torch.mean` over the empty prompt dimension
returns NaN and the forward pass completes normally: on one image and the
zero-prompt class "A" the classifier returns `ok` with a NaN similarity
column instead of an error. -/
theorem C5_counterexample :
    ConVIRTClassifier.forward (fun _ => 1) (fun _ => 0) true [[(1 : ℚ)]] [("A", [])] =
      Except.ok ([[TScalar.nan]], ["A"]) := by rfl

lemma torchMaxDim1_error (M : Mat) (hM : M ≠ []) (hrow : ∀ r ∈ M, r = []) :
    torchMaxDim1 M =
      Except.error "max(): Expected reduction dim 1 to have non-zero size" := by
  match M, hM with
  | r :: rest, _ =>
    have h0 : r = [] := hrow r (List.mem_cons_self r rest)
    subst h0
    unfold torchMaxDim1
    rw [List.mapM_cons]
    rfl

/-- C5 (amended): a class with zero prompts makes the Classifier Head raise
under the max policy (`ensemble=False`, `torch.max` rejects an empty
reduction dimension, given a non-empty image batch), while under the mean
policy (`ensemble=True`) it does not raise: the output is `ok` and that
class's column holds NaN for every image. -/
theorem C5_zero_prompt_class (sqrtFn : ℚ → ℚ) (lse : List ℚ → ℚ) (imgFeat : Mat)
    (pis : List (String × Mat)) (himg : imgFeat ≠ []) (k : ℕ) (hk : k < pis.length)
    (hempty : (pis.get ⟨k, hk⟩).2 = []) :
    (∃ msg, ConVIRTClassifier.forward sqrtFn lse false imgFeat pis = Except.error msg) ∧
    ∀ i, i < imgFeat.length →
      ∃ S srow, ConVIRTClassifier.forward sqrtFn lse true imgFeat pis =
          Except.ok (S, pis.map Prod.fst) ∧
        S.get? i = some srow ∧ srow.get? k = some TScalar.nan := by
  have hctmem : pis.get ⟨k, hk⟩ ∈ pis := pis.get_mem k hk
  have hne : pis ≠ [] := List.ne_nil_of_length_pos (Nat.lt_of_le_of_lt (Nat.zero_le k) hk)
  have hMlen : (encOut sqrtFn imgFeat (pis.get ⟨k, hk⟩).2).logits.length = imgFeat.length :=
    encOut_logits_length sqrtFn imgFeat (pis.get ⟨k, hk⟩).2
  have hMrows : ∀ r ∈ (encOut sqrtFn imgFeat (pis.get ⟨k, hk⟩).2).logits, r = [] := by
    intro r hr
    have := encOut_logits_row_length sqrtFn imgFeat (pis.get ⟨k, hk⟩).2 r hr
    rw [hempty] at this
    exact List.length_eq_zero.mp this
  have hMne : (encOut sqrtFn imgFeat (pis.get ⟨k, hk⟩).2).logits ≠ [] := by
    intro h0
    rw [h0] at hMlen
    exact himg (List.length_eq_zero.mp hMlen.symm)
  constructor
  · obtain ⟨e, he⟩ := mapM_error
      (fun ct : String × Mat => do
        let o ← ConVIRT.forward sqrtFn lse imgFeat ct.2 false
        if false then pure (torchMeanDim1 o.logits)
        else (torchMaxDim1 o.logits).map (List.map TScalar.val))
      pis (pis.get ⟨k, hk⟩) hctmem (by
        intro b hb
        have hb2 : (do
            let o ← ConVIRT.forward sqrtFn lse imgFeat (pis.get ⟨k, hk⟩).2 false
            if false then pure (torchMeanDim1 o.logits)
            else (torchMaxDim1 o.logits).map (List.map TScalar.val) :
              Except String (List TScalar)) = Except.ok b := hb
        rw [forward_false, ok_bind, if_neg (by simp),
          torchMaxDim1_error _ hMne hMrows] at hb2
        exact nomatch hb2)
    refine ⟨e, ?_⟩
    unfold ConVIRTClassifier.forward
    rw [he, error_bind]
  · intro i hi
    refine ⟨_, (pis.map fun ct => torchMeanDim1 (encOut sqrtFn imgFeat ct.2).logits).map
        fun c => c.getD i TScalar.nan,
      classifier_mean_ok sqrtFn lse imgFeat pis hne,
      stacked_get? imgFeat.length _ i hi, ?_⟩
    rw [List.get?_map, get?_map_lt pis _ k hk]
    show some ((torchMeanDim1 (encOut sqrtFn imgFeat (pis.get ⟨k, hk⟩).2).logits).getD i
      TScalar.nan) = _
    unfold torchMeanDim1
    rw [getD_map_lt _ _ i (hMlen ▸ hi)]
    rw [if_pos (by rw [hMrows _ ((encOut sqrtFn imgFeat (pis.get ⟨k, hk⟩).2).logits.get_mem
      i (hMlen ▸ hi))]; rfl)]

/-- C5 witness: the amended theorem applied to one image and the single
zero-prompt class "A". -/
theorem C5_witness :
    (([[(1 : ℚ)]] : Mat) ≠ [] ∧ (0 : ℕ) < 1) ∧
    (∃ msg, ConVIRTClassifier.forward (fun _ => 1) (fun _ => 0) false [[(1 : ℚ)]]
        [("A", [])] = Except.error msg) :=
  ⟨⟨by decide, by decide⟩,
    (C5_zero_prompt_class (fun _ => 1) (fun _ => 0) [[(1 : ℚ)]] [("A", [])]
      (by decide) 0 (by decide) (by decide)).1⟩

/-- C10: the Classifier Head always calls the Dual Encoder with
`return_loss=False`, so the classifier's result does not depend on the loss
kernel at all (swapping `lse` changes nothing), and every per-class encoder
call returns normally — whatever the image/prompt batch sizes — with
`loss_value = None`. -/
theorem C10_loss_disabled_in_classifier (sqrtFn : ℚ → ℚ) (lse lse2 : List ℚ → ℚ)
    (ensemble : Bool) (imgFeat : Mat) (pis : List (String × Mat)) :
    ConVIRTClassifier.forward sqrtFn lse ensemble imgFeat pis =
      ConVIRTClassifier.forward sqrtFn lse2 ensemble imgFeat pis ∧
    ∀ ct ∈ pis, ConVIRT.forward sqrtFn lse imgFeat ct.2 false =
        Except.ok (encOut sqrtFn imgFeat ct.2) ∧
      (encOut sqrtFn imgFeat ct.2).loss_value = none := by
  constructor
  · unfold ConVIRTClassifier.forward
    have hcongr := mapM_congrFn
      (fun ct : String × Mat => do
        let o ← ConVIRT.forward sqrtFn lse imgFeat ct.2 false
        if ensemble then pure (torchMeanDim1 o.logits)
        else (torchMaxDim1 o.logits).map (List.map TScalar.val))
      (fun ct : String × Mat => do
        let o ← ConVIRT.forward sqrtFn lse2 imgFeat ct.2 false
        if ensemble then pure (torchMeanDim1 o.logits)
        else (torchMaxDim1 o.logits).map (List.map TScalar.val))
      pis (fun ct _ => by
        show (do
            let o ← ConVIRT.forward sqrtFn lse imgFeat ct.2 false
            if ensemble then pure (torchMeanDim1 o.logits)
            else (torchMaxDim1 o.logits).map (List.map TScalar.val) :
              Except String (List TScalar)) = (do
            let o ← ConVIRT.forward sqrtFn lse2 imgFeat ct.2 false
            if ensemble then pure (torchMeanDim1 o.logits)
            else (torchMaxDim1 o.logits).map (List.map TScalar.val))
        rw [forward_false sqrtFn lse imgFeat ct.2, forward_false sqrtFn lse2 imgFeat ct.2])
    rw [hcongr]
  · exact fun ct _ => ⟨forward_false sqrtFn lse imgFeat ct.2, rfl⟩

/-- C10 witness: concrete instance with mismatched batch sizes (two images,
one prompt) where the loss branch would have raised had it been enabled. -/
theorem C10_witness :
    (("A", [[2]]) ∈ ([("A", [[2]])] : List (String × Mat))) ∧
    ConVIRT.forward (fun _ => 1) (fun _ => 0) [[(1 : ℚ)], [3]] [[2]] false =
        Except.ok (encOut (fun _ => 1) [[(1 : ℚ)], [3]] [[2]]) ∧
      (encOut (fun _ => 1) [[(1 : ℚ)], [3]] [[2]]).loss_value = none :=
  ⟨by decide,
    (C10_loss_disabled_in_classifier (fun _ => 1) (fun _ => 0) (fun _ => 0) true
      [[(1 : ℚ)], [3]] [("A", [[2]])]).2 ("A", [[2]]) (by decide)⟩

/-- Optional entry lookup of a row-major matrix. -/
def entry? (X : Mat) (i j : ℕ) : Option ℚ := (X.get? i).bind fun r => r.get? j

lemma l2normSq_normalizeRow (sqrtFn : ℚ → ℚ) (v : List ℚ)
    (hsq : sqrtFn (l2normSq v) ^ 2 = l2normSq v) (hnz : sqrtFn (l2normSq v) ≠ 0) :
    l2normSq (normalizeRow sqrtFn v) = 1 := by
  have hss : sqrtFn (l2normSq v) * sqrtFn (l2normSq v) = l2normSq v := by
    rw [← pow_two (sqrtFn (l2normSq v))]; exact hsq
  have hq : l2normSq v ≠ 0 := by rw [← hss]; exact mul_ne_zero hnz hnz
  show ((v.map fun x => x / sqrtFn (l2normSq v)).map fun x => x * x).sum = 1
  rw [List.map_map]
  have h1 : ((fun x => x * x) ∘ fun x => x / sqrtFn (l2normSq v)) =
      fun x => x * x * (sqrtFn (l2normSq v) * sqrtFn (l2normSq v))⁻¹ := by
    funext x
    show x / sqrtFn (l2normSq v) * (x / sqrtFn (l2normSq v)) = _
    rw [div_mul_div_comm, div_eq_mul_inv]
  rw [h1, List.sum_map_mul_right]
  show l2normSq v * (sqrtFn (l2normSq v) * sqrtFn (l2normSq v))⁻¹ = 1
  rw [hss, mul_inv_cancel₀ hq]

lemma transposeWith_entry (m : ℕ) (X : Mat) (i j : ℕ) (hiX : i < X.length) (hj : j < m) :
    entry? (transposeWith m X) j i = some ((X.get ⟨i, hiX⟩).getD j 0) := by
  unfold entry?
  have h1 : (transposeWith m X).get? j = some (X.map fun r => r.getD j 0) := by
    unfold transposeWith
    rw [get?_map_lt (List.range m) _ j (by simpa using hj), List.get_range]
  rw [h1]
  show (X.map fun r => r.getD j 0).get? i = _
  rw [get?_map_lt X _ i hiX]

/-- C3: on every image/text feature batch whose rows are non-degenerate (the
square-root kernel is exact and non-zero on each row's squared norm), the
dual encoder's forward pass produces image and text embeddings of squared L2
norm 1 per row, a logits matrix equal to `(img_embeds · text_embedsᵀ)`
divided by the fixed temperature 0.1, and `logits_per_text` equal to the
transpose of `logits`. -/
theorem C3_dual_encoder_forward (sqrtFn : ℚ → ℚ) (lse : List ℚ → ℚ) (imgFeat textFeat : Mat)
    (himg : ∀ v ∈ imgFeat, sqrtFn (l2normSq v) ^ 2 = l2normSq v ∧ sqrtFn (l2normSq v) ≠ 0)
    (htxt : ∀ v ∈ textFeat, sqrtFn (l2normSq v) ^ 2 = l2normSq v ∧ sqrtFn (l2normSq v) ≠ 0) :
    ∃ o, ConVIRT.forward sqrtFn lse imgFeat textFeat false = Except.ok o ∧
      (∀ row ∈ o.img_embeds, l2normSq row = 1) ∧
      (∀ row ∈ o.text_embeds, l2normSq row = 1) ∧
      o.logits = (matmulT o.img_embeds o.text_embeds).map (List.map fun x => x / temperature) ∧
      temperature = 1 / 10 ∧
      o.logits_per_text.length = textFeat.length ∧
      ∀ i j, i < imgFeat.length → j < textFeat.length →
        (entry? o.logits i j).isSome ∧
          entry? o.logits_per_text j i = entry? o.logits i j := by
  refine ⟨encOut sqrtFn imgFeat textFeat, forward_false sqrtFn lse imgFeat textFeat,
    ?_, ?_, rfl, rfl, by simp [encOut, transposeWith], ?_⟩
  · intro row hrow
    obtain ⟨v, hv, rfl⟩ := List.mem_map.mp hrow
    exact l2normSq_normalizeRow sqrtFn v (himg v hv).1 (himg v hv).2
  · intro row hrow
    obtain ⟨v, hv, rfl⟩ := List.mem_map.mp hrow
    exact l2normSq_normalizeRow sqrtFn v (htxt v hv).1 (htxt v hv).2
  · intro i j hi hj
    have hXlen : (encOut sqrtFn imgFeat textFeat).logits.length = imgFeat.length :=
      encOut_logits_length sqrtFn imgFeat textFeat
    have hiX : i < (encOut sqrtFn imgFeat textFeat).logits.length := hXlen ▸ hi
    have hrlen : ((encOut sqrtFn imgFeat textFeat).logits.get ⟨i, hiX⟩).length =
        textFeat.length :=
      encOut_logits_row_length sqrtFn imgFeat textFeat _
        ((encOut sqrtFn imgFeat textFeat).logits.get_mem i hiX)
    have hjr : j < ((encOut sqrtFn imgFeat textFeat).logits.get ⟨i, hiX⟩).length :=
      hrlen ▸ hj
    have hentry : entry? (encOut sqrtFn imgFeat textFeat).logits i j =
        some (((encOut sqrtFn imgFeat textFeat).logits.get ⟨i, hiX⟩).get ⟨j, hjr⟩) := by
      unfold entry?
      rw [List.get?_eq_get hiX]
      exact List.get?_eq_get hjr
    refine ⟨by rw [hentry]; rfl, ?_⟩
    have hlpt : (encOut sqrtFn imgFeat textFeat).logits_per_text =
        transposeWith textFeat.length (encOut sqrtFn imgFeat textFeat).logits := rfl
    rw [hlpt, transposeWith_entry textFeat.length _ i j hiX hj, hentry]
    congr 1
    show (((encOut sqrtFn imgFeat textFeat).logits.get ⟨i, hiX⟩).get? j).getD 0 = _
    rw [List.get?_eq_get hjr]
    rfl

/-- C3 witness: a 3-4-5 image row and a 0-2 text row, whose norms (5 and 2)
are rational, with the matching exact square-root kernel. -/
theorem C3_witness :
    ((∀ v ∈ ([[3, 4]] : Mat), (fun q : ℚ => if q = 25 then 5 else if q = 4 then 2 else 0)
        (l2normSq v) ^ 2 = l2normSq v ∧
        (fun q : ℚ => if q = 25 then 5 else if q = 4 then 2 else 0) (l2normSq v) ≠ 0) ∧
      (∀ v ∈ ([[0, 2]] : Mat), (fun q : ℚ => if q = 25 then 5 else if q = 4 then 2 else 0)
        (l2normSq v) ^ 2 = l2normSq v ∧
        (fun q : ℚ => if q = 25 then 5 else if q = 4 then 2 else 0) (l2normSq v) ≠ 0)) ∧
    ∃ o, ConVIRT.forward (fun q : ℚ => if q = 25 then 5 else if q = 4 then 2 else 0)
        (fun _ => 0) [[3, 4]] [[0, 2]] false = Except.ok o ∧
      (∀ row ∈ o.img_embeds, l2normSq row = 1) ∧
      (∀ row ∈ o.text_embeds, l2normSq row = 1) :=
  ⟨⟨by intro v hv; rw [List.mem_singleton] at hv; subst hv; norm_num [l2normSq],
    by intro v hv; rw [List.mem_singleton] at hv; subst hv; norm_num [l2normSq]⟩, by
    obtain ⟨o, ho, h1, h2, -⟩ := C3_dual_encoder_forward
      (fun q : ℚ => if q = 25 then 5 else if q = 4 then 2 else 0) (fun _ => 0)
      [[3, 4]] [[0, 2]]
      (by intro v hv; rw [List.mem_singleton] at hv; subst hv; norm_num [l2normSq])
      (by intro v hv; rw [List.mem_singleton] at hv; subst hv; norm_num [l2normSq])
    exact ⟨o, ho, h1, h2⟩⟩

lemma ceLoss_range_some (lse : List ℚ → ℚ) (X : Mat) (nclasses n : ℕ) (h : n ≤ nclasses) :
    ceLoss lse X nclasses (List.range n) = some (ceVal lse X (List.range n)) := by
  unfold ceLoss
  rw [if_pos]
  exact List.all_eq_true.mpr fun i hi =>
    decide_eq_true (Nat.lt_of_lt_of_le (List.mem_range.mp hi) h)

lemma ceLoss_range_none (lse : List ℚ → ℚ) (X : Mat) (nclasses n : ℕ) (h : nclasses < n) :
    ceLoss lse X nclasses (List.range n) = none := by
  unfold ceLoss
  rw [if_neg]
  intro hall
  exact absurd (of_decide_eq_true (List.all_eq_true.mp hall nclasses (List.mem_range.mpr h)))
    (lt_irrefl nclasses)

lemma forward_true_of_loss (sqrtFn : ℚ → ℚ) (lse : List ℚ → ℚ) (imgFeat textFeat : Mat)
    (l : ℚ)
    (h : ConVIRT.compute_loss lse (encOut sqrtFn imgFeat textFeat).logits textFeat.length =
      some l) :
    ConVIRT.forward sqrtFn lse imgFeat textFeat true =
      Except.ok { encOut sqrtFn imgFeat textFeat with loss_value := some l } := by
  show (match ConVIRT.compute_loss lse (encOut sqrtFn imgFeat textFeat).logits
      textFeat.length with
    | some l2 => Except.ok { encOut sqrtFn imgFeat textFeat with loss_value := some l2 }
    | none => Except.error "CrossEntropyLoss: target index out of range") = _
  rw [h]

lemma forward_true_of_loss_none (sqrtFn : ℚ → ℚ) (lse : List ℚ → ℚ) (imgFeat textFeat : Mat)
    (h : ConVIRT.compute_loss lse (encOut sqrtFn imgFeat textFeat).logits textFeat.length =
      none) :
    ConVIRT.forward sqrtFn lse imgFeat textFeat true =
      Except.error "CrossEntropyLoss: target index out of range" := by
  show (match ConVIRT.compute_loss lse (encOut sqrtFn imgFeat textFeat).logits
      textFeat.length with
    | some l2 => Except.ok { encOut sqrtFn imgFeat textFeat with loss_value := some l2 }
    | none => Except.error "CrossEntropyLoss: target index out of range") = _
  rw [h]

/-- C8: with loss computation enabled and matching batch sizes, the forward
pass returns a loss equal to `0.75` times the cross-entropy of the logits
against the diagonal (identity) target assignment plus `0.25` times the
cross-entropy of the transposed logits against the diagonal assignment. -/
theorem C8_loss_weighting (sqrtFn : ℚ → ℚ) (lse : List ℚ → ℚ) (imgFeat textFeat : Mat)
    (hbs : imgFeat.length = textFeat.length) :
    ∃ o, ConVIRT.forward sqrtFn lse imgFeat textFeat true = Except.ok o ∧
      o.loss_value = some ((3 / 4 : ℚ) * ceVal lse o.logits (List.range imgFeat.length) +
        (1 / 4 : ℚ) * ceVal lse (transposeWith textFeat.length o.logits)
          (List.range textFeat.length)) ∧
      lamb = 3 / 4 := by
  have hX := encOut_logits_length sqrtFn imgFeat textFeat
  have h1 := ceLoss_range_some lse (encOut sqrtFn imgFeat textFeat).logits textFeat.length
    ((encOut sqrtFn imgFeat textFeat).logits.length) (by rw [hX, hbs])
  have h2 := ceLoss_range_some lse
    (transposeWith textFeat.length (encOut sqrtFn imgFeat textFeat).logits)
    ((encOut sqrtFn imgFeat textFeat).logits.length) textFeat.length (by rw [hX, hbs])
  have hcl : ConVIRT.compute_loss lse (encOut sqrtFn imgFeat textFeat).logits
      textFeat.length =
      some (lamb * ceVal lse (encOut sqrtFn imgFeat textFeat).logits
          (List.range ((encOut sqrtFn imgFeat textFeat).logits.length)) +
        (1 - lamb) * ceVal lse
          (transposeWith textFeat.length (encOut sqrtFn imgFeat textFeat).logits)
          (List.range textFeat.length)) := by
    unfold ConVIRT.compute_loss
    rw [h1, h2]
    rfl
  refine ⟨_, forward_true_of_loss sqrtFn lse imgFeat textFeat _ hcl, ?_, rfl⟩
  show some _ = some _
  rw [hX]
  norm_num [lamb]

/-- C8 witness: a square 1×1 batch. -/
theorem C8_witness :
    List.length ([[(3 : ℚ), 4]] : Mat) = List.length ([[(1 : ℚ), 0]] : Mat) ∧
    ∃ o, ConVIRT.forward (fun _ => 1) (fun l => l.sum) [[(3 : ℚ), 4]] [[(1 : ℚ), 0]] true =
        Except.ok o ∧
      o.loss_value = some ((3 / 4 : ℚ) * ceVal (fun l => l.sum) o.logits (List.range 1) +
        (1 / 4 : ℚ) * ceVal (fun l => l.sum)
          (transposeWith 1 o.logits) (List.range 1)) ∧
      lamb = 3 / 4 :=
  ⟨rfl, C8_loss_weighting (fun _ => 1) (fun l => l.sum) [[(3 : ℚ), 4]] [[(1 : ℚ), 0]] rfl⟩

/-- C9: with loss computation enabled, any image/text batch-size mismatch —
in either direction — makes the forward pass raise, because one of the two
`CrossEntropyLoss` calls receives a diagonal target index that is out of
class range. -/
theorem C9_batch_mismatch_error (sqrtFn : ℚ → ℚ) (lse : List ℚ → ℚ) (imgFeat textFeat : Mat)
    (hne : imgFeat.length ≠ textFeat.length) :
    ∃ msg, ConVIRT.forward sqrtFn lse imgFeat textFeat true = Except.error msg := by
  have hX := encOut_logits_length sqrtFn imgFeat textFeat
  refine ⟨"CrossEntropyLoss: target index out of range",
    forward_true_of_loss_none sqrtFn lse imgFeat textFeat ?_⟩
  unfold ConVIRT.compute_loss
  rcases lt_or_gt_of_ne hne with h | h
  · rw [ceLoss_range_some lse _ textFeat.length _ (le_of_lt (by rw [hX]; exact h))]
    rw [ceLoss_range_none lse _ _ textFeat.length (by rw [hX]; exact h)]
    rfl
  · rw [ceLoss_range_none lse _ textFeat.length _ (by rw [hX]; exact h)]
    rfl

/-- C9 witness: two images against one text in one direction; the theorem is
also instantiated with one image against two texts. -/
theorem C9_witness :
    (List.length ([[(1 : ℚ)], [2]] : Mat) ≠ List.length ([[(1 : ℚ)]] : Mat) ∧
      List.length ([[(1 : ℚ)]] : Mat) ≠ List.length ([[(1 : ℚ)], [2]] : Mat)) ∧
    (∃ msg, ConVIRT.forward (fun _ => 1) (fun l => l.sum) [[(1 : ℚ)], [2]] [[(1 : ℚ)]] true =
      Except.error msg) ∧
    (∃ msg, ConVIRT.forward (fun _ => 1) (fun l => l.sum) [[(1 : ℚ)]] [[(1 : ℚ)], [2]] true =
      Except.error msg) :=
  ⟨⟨by decide, by decide⟩,
    C9_batch_mismatch_error (fun _ => 1) (fun l => l.sum) [[(1 : ℚ)], [2]] [[(1 : ℚ)]]
      (by decide),
    C9_batch_mismatch_error (fun _ => 1) (fun l => l.sum) [[(1 : ℚ)]] [[(1 : ℚ)], [2]]
      (by decide)⟩

lemma sampleByIdx_subset {α : Type} (idxs : List ℕ) (l : List α) :
    ∀ x ∈ sampleByIdx idxs l, x ∈ l := by
  intro x hx
  obtain ⟨i, -, h2⟩ := List.mem_filterMap.mp hx
  exact List.get?_mem h2

lemma sampleByIdx_length {α : Type} : ∀ (idxs : List ℕ) (l : List α),
    (∀ i ∈ idxs, i < l.length) → (sampleByIdx idxs l).length = idxs.length
  | [], _, _ => rfl
  | i :: t, l, h => by
    obtain ⟨x, hx, -⟩ := get?_some_of_lt l i (h i (List.mem_cons_self i t))
    have hstep : sampleByIdx (i :: t) l = x :: sampleByIdx t l := by
      unfold sampleByIdx
      rw [List.filterMap_cons, hx]
    rw [hstep, List.length_cons, List.length_cons,
      sampleByIdx_length t l fun j hj => h j (List.mem_cons_of_mem i hj)]

lemma sampleByIdx_nodup {α : Type} (idxs : List ℕ) (l : List α)
    (hidx : idxs.Nodup) (hl : l.Nodup) : (sampleByIdx idxs l).Nodup := by
  apply List.Nodup.filterMap _ hidx
  intro a b x ha hb
  rw [Option.mem_def] at ha hb
  obtain ⟨h0, -⟩ := List.get?_eq_some.mp ha
  exact List.get?_inj h0 hl (ha.trans hb.symm)

lemma length_flatMap_const {α β : Type} (l : List α) (f : α → List β) (c : ℕ)
    (h : ∀ a ∈ l, (f a).length = c) : (l.flatMap f).length = l.length * c := by
  rw [List.length_flatMap,
    show List.map (List.length ∘ f) l = List.map (fun _ => c) l from
      List.map_congr_left fun a ha => h a ha,
    List.map_const', List.sum_replicate, smul_eq_mul]

lemma cxCandidates_length (t : CXTemplate) :
    (cxCandidates t).length =
      t.severity.length * (t.subtype.length * t.location.length) := by
  unfold cxCandidates crossJoin3
  refine length_flatMap_const _ _ _ fun a _ => ?_
  refine length_flatMap_const _ _ _ fun b _ => ?_
  exact List.length_map _ _

lemma covidCandidates_length (t : CovidTemplate) :
    (covidCandidates t).length =
      t.p0.length * (t.p1.length * (t.p2.length * t.p3.length)) := by
  unfold covidCandidates crossJoin4
  refine length_flatMap_const _ _ _ fun a _ => ?_
  refine length_flatMap_const _ _ _ fun b _ => ?_
  refine length_flatMap_const _ _ _ fun c _ => ?_
  exact List.length_map _ _

/-- Case analysis of the sampling step shared by the template generators. -/
lemma samplePrompts_cases (idxs : List ℕ) (n : Option ℕ) (cands : List String) :
    ((n = none ∨ ∃ nv, n = some nv ∧ cands.length ≤ nv) →
      samplePrompts idxs n cands = cands) ∧
    (∀ nv, n = some nv → nv < cands.length →
      (∀ p ∈ samplePrompts idxs n cands, p ∈ cands) ∧
      ((idxs.length = nv ∧ ∀ i ∈ idxs, i < cands.length) →
        (samplePrompts idxs n cands).length = nv) ∧
      (idxs.Nodup ∧ cands.Nodup → (samplePrompts idxs n cands).Nodup)) := by
  constructor
  · rintro (rfl | ⟨nv, rfl, hle⟩)
    · rfl
    · show (if nv < cands.length then sampleByIdx idxs cands else cands) = cands
      rw [if_neg (not_lt.mpr hle)]
  · rintro nv rfl hlt
    have hs : samplePrompts idxs (some nv) cands = sampleByIdx idxs cands := by
      show (if nv < cands.length then sampleByIdx idxs cands else cands) = _
      rw [if_pos hlt]
    refine ⟨?_, ?_, ?_⟩
    · rw [hs]; exact sampleByIdx_subset idxs cands
    · rintro ⟨hlen, hb⟩
      rw [hs, sampleByIdx_length idxs cands hb, hlen]
    · rintro ⟨h1, h2⟩
      rw [hs]; exact sampleByIdx_nodup idxs cands h1 h2

/-- C2 counterexample: the claim promises `n` DISTINCT prompts whenever
`n` is below the candidate count, but `random.sample` draws distinct
positions, not distinct strings.  With the template
`{severity: ["a","a","a"], subtype: ["b"], location: ["c"]}` the candidate
cross-product is `["a b c", "a b c", "a b c"]`; the position draw `[0, 1]`
is a legitimate `random.sample` outcome for `n = 2` (two distinct in-range
positions), yet the two returned prompts are equal strings. -/
theorem C2_counterexample :
    generate_chexpert_class_prompts (fun _ => [0, 1])
        [("C", ⟨["a", "a", "a"], ["b"], ["c"]⟩)] (some 2) =
      [("C", ["a b c", "a b c"])] ∧
    ¬ (["a b c", "a b c"] : List String).Nodup ∧
    ([0, 1] : List ℕ).Nodup ∧
    (∀ i ∈ ([0, 1] : List ℕ), i < (cxCandidates ⟨["a", "a", "a"], ["b"], ["c"]⟩).length) ∧
    ([0, 1] : List ℕ).length = 2 ∧
    2 < (cxCandidates ⟨["a", "a", "a"], ["b"], ["c"]⟩).length :=
  ⟨rfl, by decide, by decide, by decide, rfl, by decide⟩

/-- C2 (amended): per class the template generators build exactly the
space-joined cross-product of the component phrase lists in nested
iteration order, whose length is the product of the lists' lengths; with
`n` absent or `n ≥` that count the candidates are returned unchanged; with
`n <` count the sampling draw (distinct in-range positions of length `n`)
yields exactly `n` prompts, all drawn from the candidate set and without
repeating a candidate position — pairwise-distinct strings whenever the
candidate list itself has no duplicates (which the claim's unqualified
"distinct" overstates). -/
theorem C2_template_crossproduct_sampling (draw : String → List ℕ) (n : Option ℕ)
    (cxs : List (String × CXTemplate)) (cvs : List (String × CovidTemplate))
    (k k2 : ℕ) (hk : k < cxs.length) (hk2 : k2 < cvs.length) :
    (generate_chexpert_class_prompts draw cxs n).map Prod.fst = cxs.map Prod.fst ∧
    (generate_covid_class_prompts draw cvs n).map Prod.fst = cvs.map Prod.fst ∧
    ((cxCandidates (cxs.get ⟨k, hk⟩).2).length =
        (cxs.get ⟨k, hk⟩).2.severity.length *
          ((cxs.get ⟨k, hk⟩).2.subtype.length * (cxs.get ⟨k, hk⟩).2.location.length) ∧
      ∃ ps, (generate_chexpert_class_prompts draw cxs n).get? k =
          some ((cxs.get ⟨k, hk⟩).1, ps) ∧
        ((n = none ∨ ∃ nv, n = some nv ∧ (cxCandidates (cxs.get ⟨k, hk⟩).2).length ≤ nv) →
          ps = cxCandidates (cxs.get ⟨k, hk⟩).2) ∧
        ∀ nv, n = some nv → nv < (cxCandidates (cxs.get ⟨k, hk⟩).2).length →
          (∀ p ∈ ps, p ∈ cxCandidates (cxs.get ⟨k, hk⟩).2) ∧
          (((draw (cxs.get ⟨k, hk⟩).1).length = nv ∧
            ∀ i ∈ draw (cxs.get ⟨k, hk⟩).1, i < (cxCandidates (cxs.get ⟨k, hk⟩).2).length) →
            ps.length = nv) ∧
          ((draw (cxs.get ⟨k, hk⟩).1).Nodup ∧ (cxCandidates (cxs.get ⟨k, hk⟩).2).Nodup →
            ps.Nodup)) ∧
    ((covidCandidates (cvs.get ⟨k2, hk2⟩).2).length =
        (cvs.get ⟨k2, hk2⟩).2.p0.length * ((cvs.get ⟨k2, hk2⟩).2.p1.length *
          ((cvs.get ⟨k2, hk2⟩).2.p2.length * (cvs.get ⟨k2, hk2⟩).2.p3.length)) ∧
      ∃ ps, (generate_covid_class_prompts draw cvs n).get? k2 =
          some ((cvs.get ⟨k2, hk2⟩).1, ps) ∧
        ((n = none ∨ ∃ nv, n = some nv ∧
            (covidCandidates (cvs.get ⟨k2, hk2⟩).2).length ≤ nv) →
          ps = covidCandidates (cvs.get ⟨k2, hk2⟩).2) ∧
        ∀ nv, n = some nv → nv < (covidCandidates (cvs.get ⟨k2, hk2⟩).2).length →
          (∀ p ∈ ps, p ∈ covidCandidates (cvs.get ⟨k2, hk2⟩).2) ∧
          (((draw (cvs.get ⟨k2, hk2⟩).1).length = nv ∧
            ∀ i ∈ draw (cvs.get ⟨k2, hk2⟩).1,
              i < (covidCandidates (cvs.get ⟨k2, hk2⟩).2).length) →
            ps.length = nv) ∧
          ((draw (cvs.get ⟨k2, hk2⟩).1).Nodup ∧
              (covidCandidates (cvs.get ⟨k2, hk2⟩).2).Nodup →
            ps.Nodup)) := by
  refine ⟨by simp [generate_chexpert_class_prompts],
    by simp [generate_covid_class_prompts], ⟨cxCandidates_length _, ?_⟩,
    ⟨covidCandidates_length _, ?_⟩⟩
  · refine ⟨samplePrompts (draw (cxs.get ⟨k, hk⟩).1) n (cxCandidates (cxs.get ⟨k, hk⟩).2),
      ?_, (samplePrompts_cases _ n _).1, (samplePrompts_cases _ n _).2⟩
    unfold generate_chexpert_class_prompts
    rw [get?_map_lt cxs _ k hk]
  · refine ⟨samplePrompts (draw (cvs.get ⟨k2, hk2⟩).1) n
      (covidCandidates (cvs.get ⟨k2, hk2⟩).2),
      ?_, (samplePrompts_cases _ n _).1, (samplePrompts_cases _ n _).2⟩
    unfold generate_covid_class_prompts
    rw [get?_map_lt cvs _ k2 hk2]

/-- C2 witness: singleton template mappings for both generators. -/
theorem C2_witness :
    ((0 : ℕ) < 1 ∧ (0 : ℕ) < 1) ∧
    (generate_chexpert_class_prompts (fun _ => [])
      [("Edema", ⟨["mild"], ["edema"], ["in lung"]⟩)] none).map Prod.fst = ["Edema"] ∧
    (generate_covid_class_prompts (fun _ => [])
      [("COVID", ⟨["p"], ["q"], ["r"], ["s"]⟩)] none).map Prod.fst = ["COVID"] := by
  obtain ⟨h1, h2, -, -⟩ := C2_template_crossproduct_sampling (fun _ => []) none
    [("Edema", ⟨["mild"], ["edema"], ["in lung"]⟩)] [("COVID", ⟨["p"], ["q"], ["r"], ["s"]⟩)]
    0 0 (by decide) (by decide)
  exact ⟨⟨by decide, by decide⟩, h1, h2⟩

lemma findIdx_spec : ∀ (cols : List String) (task : String), task ∈ cols →
    cols.findIdx (· == task) < cols.length ∧
      cols.get? (cols.findIdx (· == task)) = some task
  | c :: t, task, h => by
    by_cases hc : c = task
    · subst hc
      rw [List.findIdx_cons]
      simp
    · have ht : task ∈ t := by
        rcases List.mem_cons.mp h with h1 | h2
        · exact absurd h1.symm hc
        · exact h2
      obtain ⟨h1, h2⟩ := findIdx_spec t task ht
      rw [List.findIdx_cons]
      have hbc : (c == task) = false := by simpa using hc
      rw [hbc]
      exact ⟨Nat.succ_lt_succ h1, by simpa using h2⟩

lemma qualifies_cells (cols : List String) (task : String) (r : String × List ℚ)
    (htask : task ∈ cols) (hnd : cols.Nodup) (htne : task ≠ "Reports")
    (hq : qualifiesRow cols task r = true) :
    ∀ cell ∈ cols.zip r.2, (cell.1 = task → cell.2 = 1) ∧ (cell.1 ≠ task → cell.2 = 0) := by
  unfold qualifiesRow at hq
  rw [Bool.and_eq_true] at hq
  obtain ⟨h1, h2⟩ := hq
  unfold targetIsOne at h1
  rw [if_neg (by simpa using htne)] at h1
  have h1v : r.2.getD (cols.findIdx (· == task)) 0 = 1 := eq_of_beq h1
  obtain ⟨hidx, hget⟩ := findIdx_spec cols task htask
  intro cell hcell
  obtain ⟨j, hj⟩ := List.mem_iff_get?.mp hcell
  obtain ⟨hcj, hvj⟩ := (List.get?_zip_eq_some _ _ _ _).mp hj
  constructor
  · intro hct
    have hij : cols.findIdx (· == task) = j :=
      List.get?_inj hidx hnd (by rw [hget, hcj, hct])
    have hc2 : r.2.getD j 0 = cell.2 := by
      show (r.2.get? j).getD 0 = cell.2
      rw [hvj]
      rfl
    rw [← hc2, ← hij]
    exact h1v
  · intro hct
    have hcell2 := List.all_eq_true.mp h2 cell hcell
    rw [Bool.or_eq_true] at hcell2
    rcases hcell2 with h | h
    · exact absurd (eq_of_beq h) hct
    · exact eq_of_beq h

/-- Evaluation of `generate_class_prompts` on a single known task. -/
lemma gen_single_ok (draw : String → List ℕ) (tbl : SentTable) (task : String)
    (n : Option ℕ) (h : task ∈ ("Reports" :: tbl.taskCols)) :
    generate_class_prompts draw tbl [task] n = Except.ok [(task,
      (match n with
       | some nv => if nv < (qualRows tbl task).length then
           sampleByIdx (draw task) (qualRows tbl task) else qualRows tbl task
       | none => qualRows tbl task).map Prod.fst)] := by
  have hb : genTaskPrompts draw tbl n task = Except.ok (task,
      (match n with
       | some nv => if nv < (qualRows tbl task).length then
           sampleByIdx (draw task) (qualRows tbl task) else qualRows tbl task
       | none => qualRows tbl task).map Prod.fst) := by
    unfold genTaskPrompts
    rw [if_pos h]
  unfold generate_class_prompts
  rw [List.mapM_cons, hb, ok_bind]
  rfl

/-- Evaluation of `generate_class_prompts` on a single unknown task. -/
lemma gen_single_error (draw : String → List ℕ) (tbl : SentTable) (task : String)
    (n : Option ℕ) (h : task ∉ ("Reports" :: tbl.taskCols)) :
    generate_class_prompts draw tbl [task] n =
      Except.error ("KeyError: " ++ task) := by
  have hb : genTaskPrompts draw tbl n task = Except.error ("KeyError: " ++ task) := by
    unfold genTaskPrompts
    rw [if_neg h]
  unfold generate_class_prompts
  rw [List.mapM_cons, hb, error_bind]

/-- C4: every prompt returned by the sentence-sampling generator for a label
column `task` traces back to a table row whose text is longer than 4
characters, whose `task` cell (after `fillna(0)`) is 1 and whose every other
label cell is 0; and when the qualifying rows outnumber the requested `n`,
exactly `n` prompts are returned (the `DataFrame.sample(n)` draw being `n`
distinct in-range row positions). -/
theorem C4_sentence_sampling (draw : String → List ℕ) (tbl : SentTable) (task : String)
    (n : Option ℕ) (htask : task ∈ tbl.taskCols) (hrep : "Reports" ∉ tbl.taskCols)
    (hnd : tbl.taskCols.Nodup) :
    ∃ ps, generate_class_prompts draw tbl [task] n = Except.ok [(task, ps)] ∧
      (∀ p ∈ ps, ∃ r ∈ tbl.rows, p = r.1 ∧ 4 < r.1.length ∧
        ∀ cell ∈ tbl.taskCols.zip (r.2.map fun c => c.getD 0),
          (cell.1 = task → cell.2 = 1) ∧ (cell.1 ≠ task → cell.2 = 0)) ∧
      ∀ nv, n = some nv → nv < (qualRows tbl task).length →
        (draw task).length = nv → (∀ i ∈ draw task, i < (qualRows tbl task).length) →
        ps.length = nv := by
  have htne : task ≠ "Reports" := fun h => hrep (h ▸ htask)
  have hqual : ∀ r ∈ qualRows tbl task, ∃ orig ∈ tbl.rows, r.1 = orig.1 ∧
      r.2 = orig.2.map (fun c => c.getD 0) ∧ 4 < r.1.length ∧
      qualifiesRow tbl.taskCols task r = true := by
    intro r hr
    obtain ⟨hr1, hq⟩ := List.mem_filter.mp hr
    obtain ⟨hr2, hlen⟩ := List.mem_filter.mp hr1
    obtain ⟨orig, ho, hfill⟩ := List.mem_map.mp hr2
    exact ⟨orig, ho, by rw [← hfill], by rw [← hfill], of_decide_eq_true hlen, hq⟩
  have hsub : ∀ r ∈ (match n with
      | some nv => if nv < (qualRows tbl task).length then
          sampleByIdx (draw task) (qualRows tbl task) else qualRows tbl task
      | none => qualRows tbl task), r ∈ qualRows tbl task := by
    cases n with
    | none => exact fun r hr => hr
    | some nv =>
      show ∀ r ∈ (if nv < (qualRows tbl task).length then
          sampleByIdx (draw task) (qualRows tbl task) else qualRows tbl task), _
      by_cases hc : nv < (qualRows tbl task).length
      · rw [if_pos hc]
        exact sampleByIdx_subset _ _
      · rw [if_neg hc]
        exact fun r hr => hr
  refine ⟨_, gen_single_ok draw tbl task n (List.mem_cons_of_mem _ htask), ?_, ?_⟩
  · intro p hp
    obtain ⟨r, hr, rfl⟩ := List.mem_map.mp hp
    obtain ⟨orig, ho, he1, he2, hlen, hq⟩ := hqual r (hsub r hr)
    refine ⟨orig, ho, he1, by rw [← he1]; exact hlen, ?_⟩
    rw [← he2]
    exact qualifies_cells tbl.taskCols task r htask hnd htne hq
  · rintro nv rfl hlt hdl hdb
    show ((if nv < (qualRows tbl task).length then
        sampleByIdx (draw task) (qualRows tbl task) else qualRows tbl task).map
      Prod.fst).length = nv
    rw [if_pos hlt, List.length_map, sampleByIdx_length (draw task) _ hdb, hdl]

/-- C4 witness: a three-row table with one task column; the middle row is
dropped for short text, the qualifying row is returned. -/
theorem C4_witness :
    ("T1" ∈ (["T1", "T2"] : List String) ∧ "Reports" ∉ (["T1", "T2"] : List String) ∧
      (["T1", "T2"] : List String).Nodup) ∧
    ∃ ps, generate_class_prompts (fun _ => [])
        ⟨["T1", "T2"], [("some finding present", [some 1, some 0]), ("ok", [some 1, none]),
          ("another finding", [some 1, some 1])]⟩ ["T1"] (some 5) =
      Except.ok [("T1", ps)] :=
  ⟨⟨by decide, by decide, by decide⟩, by
    obtain ⟨ps, hps, -, -⟩ := C4_sentence_sampling (fun _ => [])
      ⟨["T1", "T2"], [("some finding present", [some 1, some 0]), ("ok", [some 1, none]),
        ("another finding", [some 1, some 1])]⟩ "T1" (some 5)
      (by decide) (by decide) (by decide)
    exact ⟨ps, hps⟩⟩

/-- C6 counterexample: `Reports` (the frame's text column) is not among the
label columns, yet requesting it does not raise: pandas resolves
`df_sent['Reports']`, the comparison `== 1` selects no row, and the call
silently returns an empty prompt list for it. -/
theorem C6_counterexample :
    generate_class_prompts (fun _ => [])
      ⟨["Pneumonia"], [("no acute findings", [some 1])]⟩ ["Reports"] (some 5) =
      Except.ok [("Reports", [])] := by rfl

/-- C6 (amended): a requested task name that is not a column of the table at
all — neither a label column nor the text column `Reports` — raises a
KeyError; the name `Reports`, although not a label column, is accepted
silently and yields an empty prompt list. -/
theorem C6_missing_task_error (draw : String → List ℕ) (tbl : SentTable) (task : String)
    (n : Option ℕ) (h : task ∉ ("Reports" :: tbl.taskCols)) :
    (∃ msg, generate_class_prompts draw tbl [task] n = Except.error msg) ∧
    ∃ ps, generate_class_prompts draw tbl ["Reports"] n = Except.ok [("Reports", ps)] ∧
      ps = [] := by
  have hq : qualRows tbl "Reports" = [] := by
    unfold qualRows
    apply List.filter_eq_nil.mpr
    intro r hr
    unfold qualifiesRow targetIsOne
    simp
  refine ⟨⟨"KeyError: " ++ task, gen_single_error draw tbl task n h⟩, [], ?_, rfl⟩
  rw [gen_single_ok draw tbl "Reports" n (List.mem_cons_self _ _), hq]
  cases n with
  | none => rfl
  | some nv => rfl

/-- C6 witness: the amended theorem applied to a concrete table and the
absent task name "Cardiomegaly". -/
theorem C6_witness :
    ("Cardiomegaly" ∉ ("Reports" :: (["Pneumonia"] : List String))) ∧
    ∃ msg, generate_class_prompts (fun _ => [])
        ⟨["Pneumonia"], [("no acute findings", [some 1])]⟩ ["Cardiomegaly"] (some 5) =
      Except.error msg :=
  ⟨by decide,
    (C6_missing_task_error (fun _ => [])
      ⟨["Pneumonia"], [("no acute findings", [some 1])]⟩ "Cardiomegaly" (some 5)
      (by decide)).1⟩

/-- C7: `process_class_prompts` returns one entry per class under the same
class keys in the same order, each entry tokenized with the maximum
sequence length set to 77 (truncation on) and right-padded to the batch's
common length, with matching attention masks.  The tokenizer itself is the
spec-modelled external collaborator `hfTokenize`. -/
theorem C7_tokenized_prompt_set (encode : String → List ℕ) (padId : ℕ)
    (cls_prompts : List (String × List String)) :
    (process_class_prompts encode padId cls_prompts).map Prod.fst =
      cls_prompts.map Prod.fst ∧
    (process_class_prompts encode padId cls_prompts).length = cls_prompts.length ∧
    ∀ k, (hk : k < cls_prompts.length) →
      ∃ ids masks,
        (process_class_prompts encode padId cls_prompts).get? k =
          some ((cls_prompts.get ⟨k, hk⟩).1, (ids, masks)) ∧
        ids.length = (cls_prompts.get ⟨k, hk⟩).2.length ∧
        masks.length = (cls_prompts.get ⟨k, hk⟩).2.length ∧
        ∃ L, (∀ r ∈ ids, r.length = L) ∧ (∀ r ∈ masks, r.length = L) ∧
          ∀ j, (hj : j < (cls_prompts.get ⟨k, hk⟩).2.length) →
            ∃ tok, tok = (encode ((cls_prompts.get ⟨k, hk⟩).2.get ⟨j, hj⟩)).take 77 ∧
              tok.length ≤ 77 ∧ tok.length ≤ L ∧
              ids.get? j = some (tok ++ List.replicate (L - tok.length) padId) ∧
              masks.get? j = some (List.replicate tok.length 1 ++
                List.replicate (L - tok.length) 0) := by
  refine ⟨by simp [process_class_prompts], by simp [process_class_prompts], ?_⟩
  intro k hk
  set v := (cls_prompts.get ⟨k, hk⟩).2 with hv
  set toks := v.map fun t => (encode t).take 77 with htoks
  set L := (toks.map List.length).foldl max 0 with hL
  have htlen : ∀ t ∈ toks, t.length ≤ L := by
    intro t ht
    exact mem_le_foldl_max (toks.map List.length) 0 t.length
      (List.mem_map_of_mem List.length ht)
  have hget : (process_class_prompts encode padId cls_prompts).get? k =
      some ((cls_prompts.get ⟨k, hk⟩).1,
        (toks.map fun t => t ++ List.replicate (L - t.length) padId,
         toks.map fun t => List.replicate t.length 1 ++ List.replicate (L - t.length) 0)) := by
    unfold process_class_prompts
    rw [get?_map_lt cls_prompts _ k hk]
    rfl
  refine ⟨toks.map fun t => t ++ List.replicate (L - t.length) padId,
    toks.map fun t => List.replicate t.length 1 ++ List.replicate (L - t.length) 0,
    hget, by simp [htoks], by simp [htoks], L, ?_, ?_, ?_⟩
  · intro r hr
    obtain ⟨t, ht, rfl⟩ := List.mem_map.mp hr
    rw [List.length_append, List.length_replicate]
    exact Nat.add_sub_cancel' (htlen t ht)
  · intro r hr
    obtain ⟨t, ht, rfl⟩ := List.mem_map.mp hr
    rw [List.length_append, List.length_replicate, List.length_replicate]
    exact Nat.add_sub_cancel' (htlen t ht)
  · intro j hj
    have hjt : j < toks.length := by simpa [htoks] using hj
    have htj : toks.get ⟨j, hjt⟩ = (encode (v.get ⟨j, hj⟩)).take 77 := by
      have h1 : toks.get? j = some ((encode (v.get ⟨j, hj⟩)).take 77) := by
        rw [htoks]
        exact get?_map_lt v _ j hj
      exact Option.some.inj ((List.get?_eq_get hjt).symm.trans h1)
    refine ⟨toks.get ⟨j, hjt⟩, htj, ?_, htlen _ (toks.get_mem j hjt), ?_, ?_⟩
    · rw [htj, List.length_take]
      exact min_le_left _ _
    · rw [get?_map_lt toks _ j hjt]
    · rw [get?_map_lt toks _ j hjt]

/-- C7 witness: one class with two prompts under a length-encoding
tokenizer. -/
theorem C7_witness :
    ((0 : ℕ) < 1) ∧
    (process_class_prompts (fun s => List.replicate s.length 7) 0
      [("A", ["ab", "abcde"])]).map Prod.fst = ["A"] ∧
    ∃ ids masks, (process_class_prompts (fun s => List.replicate s.length 7) 0
      [("A", ["ab", "abcde"])]).get? 0 = some ("A", (ids, masks)) := by
  obtain ⟨h1, -, h3⟩ := C7_tokenized_prompt_set (fun s => List.replicate s.length 7) 0
    [("A", ["ab", "abcde"])]
  obtain ⟨ids, masks, hget, -⟩ := h3 0 (by decide)
  exact ⟨by decide, h1, ids, masks, hget⟩

end MedCLIP
